import Mathlib

/-!
Verification of the stepper-motor delay generator (stepgen).

The development shallowly embeds the generator's Rust source:

* `X32` models `src/x32.rs`: the `FixedU32<12>` (U20F12) fixed-point variant.
  A fixed-point number is represented by its raw bits as a `Nat` below `2^32`;
  the raw value of `x` is `x * 2^12`.  Arithmetic follows the release-build
  (wrapping) semantics of Rust's `fixed` crate: every operation reduces
  modulo `2^32`; multiplication and division truncate the extra fractional
  bits toward zero, exactly as `FixedU32` does.
* `LibV1` models `src/lib.rs`: the earlier all-`u32` variant with the
  `slewing_delay` cruise lock and the `set_target_step` retarget entry point.

Timer instants and durations (`fugit` millisecond types) are plain `Nat`
tick counts; instant subtraction is `Nat` truncated subtraction, and the
theorems that touch it carry the monotone-clock hypotheses under which the
truncation agrees with the source (whose subtraction requires a
non-decreasing clock).
-/

namespace X32

/-- Modulus of all 32-bit quantities. -/
def U32MOD : Nat := 4294967296

/-- Raw scale of `FixedU32<12>`: one unit is `2^12` raw ticks. -/
def FRAC12 : Nat := 4096

/-- `Fix::from_num(n)` for an integer `n` (raw bits, wrapping). -/
def fixFromNat (n : Nat) : Nat := (n * 4096) % U32MOD

/-- Fixed-point multiplication on raw bits (truncating, wrapping). -/
def fixMul (a b : Nat) : Nat := (a * b / 4096) % U32MOD

/-- Fixed-point division on raw bits (truncating, wrapping). -/
def fixDiv (a b : Nat) : Nat := (a * 4096 / b) % U32MOD

/-- Fixed-point (and `u32`) addition, wrapping. -/
def fixAdd (a b : Nat) : Nat := (a + b) % U32MOD

/-- Fixed-point (and `u32`) subtraction, wrapping (release semantics);
for arguments below `2^32` this is two's-complement wrap-around. -/
def fixSub (a b : Nat) : Nat := (a + U32MOD - b % U32MOD) % U32MOD

/-- `to_num::<u32>()`: truncate the fractional bits. -/
def fixToNat (a : Nat) : Nat := a / 4096

/-- `u32` increment, wrapping. -/
def u32Add1 (a : Nat) : Nat := (a + 1) % U32MOD

/-- `u32` subtraction, wrapping. -/
def u32Sub (a b : Nat) : Nat := (a + U32MOD - b % U32MOD) % U32MOD

/-- The constant `fixed!(2: U20F12)` (raw `2 * 2^12`). -/
def TWO : Nat := 8192

/-- The constant `fixed!(4: U20F12)` (raw `4 * 2^12`). -/
def FOUR : Nat := 16384

/-- The constant `Fix::ONE` (raw `2^12`). -/
def ONE : Nat := 4096

/-- `Fix::PI`: pi with 12 fractional bits (rounding of the final bit does
not matter for any theorem below). -/
def fixPI : Nat := 12868

/-- `Fix18::PI`: pi with 18 fractional bits. -/
def fix18PI : Nat := 823550

/-- `Fix18::from_num(n)` for an integer `n` (18 fractional bits). -/
def fix18FromNat (n : Nat) : Nat := (n * 262144) % U32MOD

/-- `FixedU32<18>` multiplication on raw bits. -/
def fix18Mul (a b : Nat) : Nat := (a * b / 262144) % U32MOD

/-- `FixedU32<18>` division on raw bits. -/
def fix18Div (a b : Nat) : Nat := (a * 262144 / b) % U32MOD

/-- `Fix::from_num` applied to a `Fix18` value: drop 6 fractional bits
(rounding toward negative infinity, as `from_num` does). -/
def fix18ToFix12 (a : Nat) : Nat := a / 64

/-- `Fix32::from_num` applied to a `Fix` value: shift up by 20 fractional
bits (wrapping in release builds when the value is not below one). -/
def fix12ToFix32 (a : Nat) : Nat := (a * 1048576) % U32MOD

/-- `Fix::from_num` applied to a `Fix32` value: drop 20 fractional bits. -/
def fix32ToFix12 (a : Nat) : Nat := a / 1048576

/-- `FixedU32<32>` square root: the floor square root at 32 fractional
bits, `sqrt(raw / 2^32) * 2^32 = sqrt(raw * 2^32)` rounded down. -/
def fix32Sqrt (a : Nat) : Nat := Nat.sqrt (a * 4294967296)

/-- `FixedU32<32>` multiplication on raw bits. -/
def fix32Mul (a b : Nat) : Nat := (a * b / 4294967296) % U32MOD

/-- `Fix32::from_num(0.676)`: `0.676 * 2^32` truncated toward zero
(the low-bit rounding does not matter for any theorem below). -/
def fix32C0676 : Nat := 2903397892

/-- The `Error` enum of `src/utils/enums.rs`. -/
inductive Error where
  | NoStepTargetAndNoDuration
  | BothStepTargetAndDuration
  | ZeroAcceleration
  | ZeroRpm
  | InvalidState
  | InvalidAlpha
deriving DecidableEq

/-- The `OperatingMode` enum of `src/utils/enums.rs`. -/
inductive OperatingMode where
  | Step
  | Duration
deriving DecidableEq

/-- The `Stepgen` struct of `src/x32.rs`.  Delay fields hold raw
`FixedU32<12>` bits; duration fields hold millisecond tick counts. -/
structure Stepgen where
  operating_mode : OperatingMode
  current_step : Nat
  acceleration_steps : Nat
  acceleration_duration_ms : Nat
  current_delay : Nat
  current_duration_ms : Nat
  first_delay : Nat
  target_step : Nat
  target_duration_ms : Nat
  target_delay : Nat
  start_time_ms : Option Nat
  is_acceleration_done : Bool
deriving DecidableEq

/-- `Stepgen::speed_up` (`src/x32.rs` lines 169-179). -/
def speed_up (s : Stepgen) : Stepgen :=
  let denom := fixAdd (fixMul FOUR (fixFromNat s.acceleration_steps)) ONE
  let d1 := fixSub s.current_delay (fixDiv (fixMul TWO s.current_delay) denom)
  let d2 := if d1 < s.target_delay then s.target_delay else d1
  { s with current_delay := d2,
           acceleration_steps := u32Add1 s.acceleration_steps,
           acceleration_duration_ms := s.current_duration_ms,
           current_step := u32Add1 s.current_step }

/-- The denominator `FOUR * Fix::from_num(self.acceleration_steps) - Fix::ONE`
computed by `slow_down` before the index clamp (`src/x32.rs` line 183). -/
def slow_down_denom (s : Stepgen) : Nat :=
  fixSub (fixMul FOUR (fixFromNat s.acceleration_steps)) ONE

/-- `Stepgen::slow_down` (`src/x32.rs` lines 182-190).  The division is
performed first, with the denominator computed from the unclamped index;
the clamp `if acceleration_steps == 0 { acceleration_steps = 1 }` follows
it and protects only the decrement (which is therefore exact). -/
def slow_down (s : Stepgen) : Stepgen :=
  let d1 := fixAdd s.current_delay (fixDiv (fixMul TWO s.current_delay) (slow_down_denom s))
  let a1 := if s.acceleration_steps = 0 then 1 else s.acceleration_steps
  { s with current_delay := d1,
           acceleration_steps := a1 - 1,
           current_step := u32Add1 s.current_step }

/-- `Stepgen::next_delay_step` (`src/x32.rs` lines 137-167).  Returns the
emitted result (`none` is the terminal signal) together with the updated
state. -/
def next_delay_step (s : Stepgen) : Option Nat × Stepgen :=
  if s.current_step = 0 then
    (some (fixToNat s.first_delay),
     { s with acceleration_steps := u32Add1 s.acceleration_steps,
              current_step := u32Add1 s.current_step,
              current_delay := s.first_delay })
  else if s.target_step ≤ s.current_step then
    (none, s)
  else if u32Sub s.target_step s.acceleration_steps ≤ s.current_step then
    let s' := slow_down s
    (some (fixToNat s'.current_delay), s')
  else if s.current_delay = s.target_delay then
    let s' := { s with is_acceleration_done := true,
                       current_step := u32Add1 s.current_step }
    (some (fixToNat s'.current_delay), s')
  else
    let s' := speed_up s
    (some (fixToNat s'.current_delay), s')

/-- `Stepgen::next_delay_duration` (`src/x32.rs` lines 101-134).  The
`fugit` instant subtraction `current_ms - start_time` is modelled by `Nat`
truncated subtraction; the source requires a clock that never runs
backwards past the recorded start, and the theorems below assume it. -/
def next_delay_duration (s : Stepgen) (current_ms : Nat) : Option Nat × Stepgen :=
  match s.start_time_ms with
  | none =>
      (some (fixToNat s.first_delay),
       { s with start_time_ms := some current_ms,
                acceleration_steps := u32Add1 s.acceleration_steps,
                current_delay := s.first_delay,
                current_step := u32Add1 s.current_step })
  | some st =>
      let s1 := { s with current_duration_ms := current_ms - st }
      if s1.target_duration_ms ≤ s1.current_duration_ms then
        (none, s1)
      else if s1.target_duration_ms - s1.current_duration_ms ≤ s1.acceleration_duration_ms then
        let s' := slow_down s1
        (some (fixToNat s'.current_delay), s')
      else if s1.current_delay = s1.target_delay then
        let s' := { s1 with is_acceleration_done := true,
                            current_step := u32Add1 s1.current_step }
        (some (fixToNat s'.current_delay), s')
      else
        let s' := speed_up s1
        (some (fixToNat s'.current_delay), s')

/-- `Stepgen::next_delay` (`src/x32.rs` lines 90-98): the per-tick advance
dispatcher. -/
def next_delay (s : Stepgen) (timer_ms : Option Nat) : Option Nat × Stepgen :=
  match timer_ms, s.operating_mode with
  | none, OperatingMode.Duration => (none, s)
  | _, OperatingMode.Step => next_delay_step s
  | some t, OperatingMode.Duration => next_delay_duration s t

/-- `Stepgen::new` (`src/x32.rs` lines 46-87), with the compile-time
constant `TIMER_HZ_MICROS` passed explicitly.  Note that no check rejects
the case where both targets are zero: such inputs fall through to the
`Duration` operating mode with a zero target duration. -/
def new (TIMER_HZ_MICROS target_rpm acceleration target_step target_duration_ms
    full_steps_per_revolution : Nat) : Except Error Stepgen :=
  if acceleration = 0 then .error .ZeroAcceleration
  else if target_rpm = 0 then .error .ZeroRpm
  else if target_step ≠ 0 ∧ target_duration_ms ≠ 0 then .error .BothStepTargetAndDuration
  else
    let operating_mode := if target_step ≠ 0 then OperatingMode.Step else OperatingMode.Duration
    let target_delay :=
      fixDiv (fixMul (fixDiv (fixFromNat 60) (fixFromNat full_steps_per_revolution))
        (fixFromNat TIMER_HZ_MICROS)) (fixFromNat target_rpm)
    let angle_rad :=
      fix18Div (fix18Mul (fix18Div (fix18FromNat 360) (fix18FromNat full_steps_per_revolution))
        fix18PI) (fix18FromNat 180)
    let accel_rad_s2 :=
      fixDiv (fixMul (fixMul (fixFromNat acceleration) TWO) fixPI) (fixFromNat 60)
    let first_delay0 :=
      fixMul (fix32ToFix12 (fix32Mul
        (fix32Sqrt (fix12ToFix32 (fixDiv (fix18ToFix12 (fix18Mul (fix18FromNat 2) angle_rad))
          accel_rad_s2)))
        fix32C0676)) (fixFromNat TIMER_HZ_MICROS)
    let first_delay := if first_delay0 < target_delay then target_delay else first_delay0
    .ok { operating_mode := operating_mode,
          current_step := 0,
          acceleration_steps := 0,
          acceleration_duration_ms := 0,
          current_delay := 0,
          current_duration_ms := 0,
          first_delay := first_delay,
          target_step := target_step,
          target_duration_ms := target_duration_ms,
          target_delay := target_delay,
          start_time_ms := none,
          is_acceleration_done := false }

/-- Iterate the step-mode advance `k` times, keeping the final state. -/
def advanceN (s : Stepgen) : Nat → Stepgen
  | 0 => s
  | k + 1 => (next_delay_step (advanceN s k)).2

/-- Feed a list of clock readings through `next_delay`, collecting the
emitted results. -/
def runSeq (s : Stepgen) : List (Option Nat) → List (Option Nat)
  | [] => []
  | t :: ts => (next_delay s t).1 :: runSeq (next_delay s t).2 ts

/-- A non-decreasing chain of present clock readings starting at `t0`. -/
def clockChain : Nat → List (Option Nat) → Bool
  | _, [] => true
  | t0, some t :: ts => decide (t0 ≤ t) && clockChain t ts
  | _, none :: _ => false

/-- Modelled from the spec: the guarded form of `slow_down` that the spec
describes, in which the index that produces the denominator is clamped to
its floor before the division whenever the denominator `4n - 1` would be
non-positive.  Used only to compare against the source's `slow_down`. -/
def slow_down_clampFirst (s : Stepgen) : Stepgen :=
  let a1 := if s.acceleration_steps = 0 then 1 else s.acceleration_steps
  let denom := fixSub (fixMul FOUR (fixFromNat a1)) ONE
  let d1 := fixAdd s.current_delay (fixDiv (fixMul TWO s.current_delay) denom)
  { s with current_delay := d1,
           acceleration_steps := a1 - 1,
           current_step := u32Add1 s.current_step }

theorem u32Sub_of_le {a b : Nat} (hb : b ≤ a) (ha : a < 4294967296) : u32Sub a b = a - b := by
  have hbm : b % U32MOD = b := Nat.mod_eq_of_lt (lt_of_le_of_lt hb ha)
  unfold u32Sub U32MOD
  unfold U32MOD at hbm
  rw [hbm]
  have h1 : a + 4294967296 - b = 4294967296 + (a - b) := by omega
  rw [h1, Nat.add_mod_left, Nat.mod_eq_of_lt (by omega)]

theorem fixSub_of_le {a b : Nat} (hb : b ≤ a) (ha : a < 4294967296) : fixSub a b = a - b :=
  u32Sub_of_le hb ha

theorem u32Add1_of_lt {a : Nat} (h : a + 1 < 4294967296) : u32Add1 a = a + 1 :=
  Nat.mod_eq_of_lt h

theorem nds_zero (s : Stepgen) (h : s.current_step = 0) :
    next_delay_step s =
      (some (fixToNat s.first_delay),
       { s with acceleration_steps := u32Add1 s.acceleration_steps,
                current_step := u32Add1 s.current_step,
                current_delay := s.first_delay }) := by
  unfold next_delay_step
  rw [if_pos h]

theorem nds_terminal (s : Stepgen) (h0 : s.current_step ≠ 0)
    (ht : s.target_step ≤ s.current_step) : next_delay_step s = (none, s) := by
  unfold next_delay_step
  rw [if_neg h0, if_pos ht]

theorem nds_target_preserved (s : Stepgen) :
    (next_delay_step s).2.target_step = s.target_step := by
  unfold next_delay_step speed_up slow_down
  split_ifs <;> rfl

theorem nds_mid (s : Stepgen) (h0 : s.current_step ≠ 0)
    (h2 : s.current_step < s.target_step) (hm : s.current_step + 1 < 4294967296) :
    ((next_delay_step s).1).isSome = true ∧
      (next_delay_step s).2.current_step = s.current_step + 1 := by
  unfold next_delay_step
  rw [if_neg h0, if_neg (Nat.not_le.mpr h2)]
  split_ifs <;>
    exact ⟨rfl, by simp [slow_down, speed_up, u32Add1_of_lt hm]⟩

theorem nds_none_inv (s : Stepgen) (h : (next_delay_step s).1 = none) :
    s.current_step ≠ 0 ∧ s.target_step ≤ s.current_step ∧ (next_delay_step s).2 = s := by
  unfold next_delay_step at h ⊢
  split_ifs at h ⊢ with h1 h2 <;> simp_all

theorem nd_step (s : Stepgen) (t : Option Nat) (hm : s.operating_mode = OperatingMode.Step) :
    next_delay s t = next_delay_step s := by
  cases t <;> simp [next_delay, hm]

theorem nd_dur (s : Stepgen) (t0 : Nat) (hm : s.operating_mode = OperatingMode.Duration) :
    next_delay s (some t0) = next_delay_duration s t0 := by
  simp [next_delay, hm]

theorem ndd_none_inv (s : Stepgen) (t st : Nat) (hst : s.start_time_ms = some st)
    (h : (next_delay_duration s t).1 = none) :
    s.target_duration_ms ≤ t - st ∧
      (next_delay_duration s t).2 = { s with current_duration_ms := t - st } := by
  unfold next_delay_duration at h ⊢
  rw [hst] at h ⊢
  dsimp only at h ⊢
  split_ifs at h ⊢ <;> simp_all

theorem ndd_terminal (s : Stepgen) (st t : Nat) (hst : s.start_time_ms = some st)
    (hterm : s.target_duration_ms ≤ t - st) :
    next_delay_duration s t = (none, { s with current_duration_ms := t - st }) := by
  unfold next_delay_duration
  rw [hst]
  dsimp only
  rw [if_pos hterm]

theorem step_dead : ∀ (ts : List (Option Nat)) (s : Stepgen),
    s.operating_mode = OperatingMode.Step → s.current_step ≠ 0 →
    s.target_step ≤ s.current_step → ∀ o ∈ runSeq s ts, o = none := by
  intro ts
  induction ts with
  | nil => intro s _ _ _ o ho; simp [runSeq] at ho
  | cons t ts ih =>
      intro s hm h0 ht o ho
      rw [runSeq, nd_step s t hm, nds_terminal s h0 ht] at ho
      rcases List.mem_cons.mp ho with ho1 | ho1
      · exact ho1
      · exact ih s hm h0 ht o ho1

theorem dur_dead (st : Nat) : ∀ (ts : List (Option Nat)) (t0 : Nat) (s : Stepgen),
    s.operating_mode = OperatingMode.Duration → s.start_time_ms = some st →
    s.target_duration_ms + st ≤ t0 → clockChain t0 ts = true →
    ∀ o ∈ runSeq s ts, o = none := by
  intro ts
  induction ts with
  | nil => intro t0 s _ _ _ _ o ho; simp [runSeq] at ho
  | cons t ts ih =>
      intro t0 s hm hst hle hchain o ho
      cases t with
      | none => simp [clockChain] at hchain
      | some t1 =>
          rw [clockChain, Bool.and_eq_true, decide_eq_true_iff] at hchain
          obtain ⟨h01, hch⟩ := hchain
          rw [runSeq, nd_dur s t1 hm,
            ndd_terminal s st t1 hst (by omega)] at ho
          rcases List.mem_cons.mp ho with ho1 | ho1
          · exact ho1
          · exact ih t1 { s with current_duration_ms := t1 - st } hm hst
              (by show s.target_duration_ms + st ≤ t1; omega) hch o ho1

theorem advanceN_spec (s0 : Stepgen) (N : Nat) (hstep : s0.current_step = 0)
    (htgt : s0.target_step = N) (hN : N < 4294967296) :
    ∀ k, k ≤ N → (advanceN s0 k).current_step = k ∧ (advanceN s0 k).target_step = N := by
  intro k
  induction k with
  | zero => exact fun _ => ⟨hstep, htgt⟩
  | succ k ih =>
      intro hk
      obtain ⟨ihs, iht⟩ := ih (by omega)
      constructor
      · show (next_delay_step (advanceN s0 k)).2.current_step = k + 1
        by_cases hk0 : k = 0
        · subst hk0
          rw [nds_zero _ ihs]
          show u32Add1 (advanceN s0 0).current_step = 0 + 1
          rw [ihs]
          decide
        · have := nds_mid (advanceN s0 k) (by rw [ihs]; exact hk0)
            (by rw [ihs, iht]; omega) (by rw [ihs]; omega)
          rw [ihs] at this
          exact this.2
      · show (next_delay_step (advanceN s0 k)).2.target_step = N
        rw [nds_target_preserved, iht]

end X32

/-- A placeholder state, used only as the default of `Option.getD` when a
witness extracts the generator from a constructor call already known to
have succeeded. -/
def defaultStepgen : X32.Stepgen :=
  { operating_mode := X32.OperatingMode.Step,
    current_step := 0, acceleration_steps := 0, acceleration_duration_ms := 0,
    current_delay := 0, current_duration_ms := 0, first_delay := 0,
    target_step := 0, target_duration_ms := 0, target_delay := 0,
    start_time_ms := none, is_acceleration_done := false }

namespace LibV1

/-- Modulus of all 32-bit quantities. -/
def U32MOD : Nat := 4294967296

/-- `u32` wrapping subtraction (release semantics). -/
def u32Sub (a b : Nat) : Nat := (a + U32MOD - b % U32MOD) % U32MOD

/-- The `Error` enum of `src/lib.rs`. -/
inductive Error where
  | TooSlow
  | TooFast
  | SpeedAccelerationNotSet
deriving DecidableEq

/-- The `Stepgen` struct of `src/lib.rs`.  All fields are `u32` values
(`delay`, `slewing_delay`, `first_delay`, `target_delay` in 16.16 format). -/
structure Stepgen where
  current_step : Nat
  speed : Nat
  delay : Nat
  slewing_delay : Nat
  ticks_per_second : Nat
  first_delay : Nat
  target_step : Nat
  target_delay : Nat
deriving DecidableEq

/-- `Stepgen::new` (`src/lib.rs` lines 42-53). -/
def new (ticks_per_second : Nat) : Stepgen :=
  { current_step := 0, speed := 0, delay := 0, slewing_delay := 0,
    ticks_per_second := ticks_per_second, first_delay := 0,
    target_step := 0, target_delay := 0 }

/-- `Stepgen::set_target_step` (`src/lib.rs` lines 61-67).  Validates that
speed and acceleration were configured, then stores the new target.  It
does not touch `slewing_delay` or any other motion state. -/
def set_target_step (s : Stepgen) (target_step : Nat) : Except Error Unit × Stepgen :=
  if s.target_delay = 0 ∨ s.first_delay = 0 then
    (.error .SpeedAccelerationNotSet, s)
  else
    (.ok (), { s with target_step := target_step })

/-- `Stepgen::speedup` (`src/lib.rs` lines 174-178), wrapping `u32`
arithmetic with round-to-nearest division. -/
def speedup (s : Stepgen) : Stepgen :=
  let denom := (4 * s.speed + 1) % U32MOD
  { s with delay := u32Sub s.delay (((2 * s.delay) % U32MOD + denom / 2) % U32MOD / denom),
           speed := (s.speed + 1) % U32MOD }

/-- `Stepgen::slowdown` (`src/lib.rs` lines 180-184): the speed index is
decremented first (wrapping if it was zero), then the delay is updated. -/
def slowdown (s : Stepgen) : Stepgen :=
  let speed' := u32Sub s.speed 1
  let denom := u32Sub ((4 * speed') % U32MOD) 1
  { s with speed := speed',
           delay := (s.delay + ((2 * s.delay) % U32MOD + denom / 2) % U32MOD / denom) % U32MOD }

/-- The `Stop slewing if target delay was changed` statement of
`Stepgen::next_delay` (`src/lib.rs` lines 119-121). -/
def clear_stale_slewing (s : Stepgen) : Stepgen :=
  if s.slewing_delay ≠ 0 ∧ s.slewing_delay ≠ s.target_delay then
    { s with slewing_delay := 0 }
  else s

/-- The `if self.speed == 0 { ... };` statement of `Stepgen::next_delay`
(`src/lib.rs` lines 126-136).  It is an expression whose value is
discarded: only the assignments in its `else` arm (load `first_delay`,
set `speed = 1`) take effect, after which control falls through to the
projected-stop logic. -/
def load_first_delay (s : Stepgen) : Stepgen :=
  if s.speed = 0 then
    (if s.first_delay < s.target_delay then s
     else { s with delay := s.first_delay, speed := 1 })
  else s

/-- The projected-stop block of `Stepgen::next_delay` (`src/lib.rs` lines
138-166); `st` is the step count captured before the increment. -/
def apply_ramp (st : Nat) (s3 : Stepgen) : Stepgen :=
  let est_stop := (st + s3.speed) % U32MOD
  if est_stop = s3.target_step then
    s3
  else if s3.target_step < est_stop then
    { (slowdown s3) with slewing_delay := 0 }
  else if s3.slewing_delay = 0 ∧ s3.delay < s3.target_delay then
    (let t := slowdown s3
     if s3.target_delay ≤ t.delay then { t with slewing_delay := s3.target_delay } else t)
  else if s3.slewing_delay = 0 ∧ s3.target_delay < s3.delay then
    (let t := speedup s3
     if t.delay ≤ s3.target_delay then { t with slewing_delay := s3.target_delay } else t)
  else s3

/-- `Stepgen::next_delay` (`src/lib.rs` lines 107-171).  `0` is the
terminal result.  The statement blocks of the source body are the helper
functions above, applied in source order. -/
def next_delay (s0 : Stepgen) : Nat × Stepgen :=
  if s0.target_step ≤ s0.current_step ∧ s0.speed ≤ 1 then
    (0, { s0 with speed := 0 })
  else
    let s1 := clear_stale_slewing s0
    let s2 := { s1 with current_step := (s1.current_step + 1) % U32MOD }
    let s4 := apply_ramp s0.current_step (load_first_delay s2)
    (if s4.slewing_delay ≠ 0 then s4.slewing_delay else s4.delay, s4)

end LibV1

/-- A fresh step-mode state used as concrete input by witnesses. -/
def freshStep : X32.Stepgen :=
  { operating_mode := X32.OperatingMode.Step,
    current_step := 0, acceleration_steps := 0, acceleration_duration_ms := 0,
    current_delay := 0, current_duration_ms := 0, first_delay := 8192000,
    target_step := 2, target_duration_ms := 0, target_delay := 614400,
    start_time_ms := none, is_acceleration_done := false }

/-- A mid-flight state whose acceleration index has been driven to zero
by deceleration; `current_delay` is one unit (raw `4096`). -/
def zeroIndexState : X32.Stepgen :=
  { operating_mode := X32.OperatingMode.Step,
    current_step := 10, acceleration_steps := 0, acceleration_duration_ms := 0,
    current_delay := 4096, current_duration_ms := 0, first_delay := 8192000,
    target_step := 100, target_duration_ms := 0, target_delay := 100,
    start_time_ms := none, is_acceleration_done := false }

/-- A mid-flight state with a positive acceleration index. -/
def midFlightState : X32.Stepgen :=
  { operating_mode := X32.OperatingMode.Step,
    current_step := 10, acceleration_steps := 3, acceleration_duration_ms := 0,
    current_delay := 8192, current_duration_ms := 0, first_delay := 8192000,
    target_step := 100, target_duration_ms := 0, target_delay := 4096,
    start_time_ms := none, is_acceleration_done := false }

/-- C6: on the first per-tick advance of a freshly constructed generator
(`current_step = 0`, no acceleration steps taken), `next_delay_step`
returns exactly `first_delay` (truncated to ticks), and afterwards
`current_delay = first_delay`, `acceleration_steps = 1` and
`current_step = 1`. -/
theorem x32_first_tick_emits_first_delay (s : X32.Stepgen)
    (h0 : s.current_step = 0) (ha : s.acceleration_steps = 0) :
    (X32.next_delay_step s).1 = some (X32.fixToNat s.first_delay) ∧
      (X32.next_delay_step s).2.current_delay = s.first_delay ∧
      (X32.next_delay_step s).2.acceleration_steps = 1 ∧
      (X32.next_delay_step s).2.current_step = 1 := by
  rw [X32.nds_zero s h0]
  refine ⟨rfl, rfl, ?_, ?_⟩
  · simp [ha, X32.u32Add1, X32.U32MOD]
  · simp [h0, X32.u32Add1, X32.U32MOD]

/-- Witness for C6 at a concrete freshly constructed state. -/
theorem x32_first_tick_emits_first_delay_witness :
    (X32.next_delay_step freshStep).1 = some 2000 ∧
      (X32.next_delay_step freshStep).2.acceleration_steps = 1 := by
  have h := x32_first_tick_emits_first_delay freshStep rfl rfl
  exact ⟨h.1, h.2.2.1⟩

/-- C9: in step-target mode the invariant `acceleration_steps ≤
current_step` is preserved by every call to `next_delay_step`, and the
deceleration check's subtraction `target_step - acceleration_steps` is
reached only while `current_step < target_step`, where the invariant
gives `acceleration_steps < target_step`, so the `u32` subtraction never
wraps and agrees with the exact subtraction. -/
theorem x32_accel_le_step_and_no_underflow (s : X32.Stepgen)
    (hinv : s.acceleration_steps ≤ s.current_step)
    (hb : s.current_step + 1 < 4294967296)
    (ht32 : s.target_step < 4294967296) :
    ((X32.next_delay_step s).2.acceleration_steps ≤
        (X32.next_delay_step s).2.current_step) ∧
      (s.current_step ≠ 0 → s.current_step < s.target_step →
        s.acceleration_steps < s.target_step ∧
          X32.u32Sub s.target_step s.acceleration_steps
            = s.target_step - s.acceleration_steps) := by
  constructor
  · unfold X32.next_delay_step
    split_ifs with h1 h2 h3 h4 <;>
      simp only [X32.slow_down, X32.slow_down_denom, X32.speed_up, X32.u32Add1,
        X32.U32MOD] <;>
      first
        | omega
        | (split_ifs <;> omega)
  · intro _ hlt
    have hacc : s.acceleration_steps < s.target_step := by omega
    exact ⟨hacc, X32.u32Sub_of_le (by omega) (by omega)⟩

/-- Witness for C9 at a concrete mid-flight state. -/
theorem x32_accel_le_step_and_no_underflow_witness :
    ((X32.next_delay_step midFlightState).2.acceleration_steps ≤
        (X32.next_delay_step midFlightState).2.current_step) ∧
      X32.u32Sub midFlightState.target_step midFlightState.acceleration_steps = 97 := by
  have h := x32_accel_le_step_and_no_underflow midFlightState (by decide) (by decide) (by decide)
  exact ⟨h.1, by rw [(h.2 (by decide) (by decide)).2]; decide⟩

/-- C3 counterexample: at an explicit state whose acceleration index is
zero, the mathematical denominator `4 * 0 - 1` is non-positive, yet
`slow_down` performs the division before any clamp: the `u32` fixed-point
subtraction wraps to raw `2^32 - 4096` and the division uses that wrapped
value, so the resulting delay (unchanged, `4096`) differs from the delay
the spec's clamp-before-divide rule would produce (`6826`). -/
theorem x32_slow_down_divides_before_clamp_cex :
    X32.slow_down_denom zeroIndexState = 4294963200 ∧
      (X32.slow_down zeroIndexState).current_delay = 4096 ∧
      (X32.slow_down_clampFirst zeroIndexState).current_delay = 6826 ∧
      (X32.slow_down zeroIndexState).current_delay
        ≠ (X32.slow_down_clampFirst zeroIndexState).current_delay := by
  refine ⟨by decide, by decide, by decide, by decide⟩

/-- C3 amended: in `slow_down` the index at its floor (zero) is never
decremented further and the decrement never underflows, but the clamp is
applied only after the division: the denominator is computed from the
unclamped index, so when the index is zero the unsigned fixed-point
subtraction `4*0 - 1` wraps to raw `2^32 - 4096` and the division charges
`(2 * delay) / (2^32 - 4096)` instead of using a clamped denominator. -/
theorem x32_slow_down_floor_and_denominator (s : X32.Stepgen) :
    (s.acceleration_steps = 0 →
      (X32.slow_down s).acceleration_steps = 0 ∧
        X32.slow_down_denom s = 4294963200 ∧
        (X32.slow_down s).current_delay
          = X32.fixAdd s.current_delay
              (X32.fixDiv (X32.fixMul X32.TWO s.current_delay) 4294963200)) ∧
      (1 ≤ s.acceleration_steps →
        (X32.slow_down s).acceleration_steps = s.acceleration_steps - 1) := by
  constructor
  · intro h
    have hd : X32.slow_down_denom s = 4294963200 := by
      simp [X32.slow_down_denom, h, X32.fixMul, X32.fixFromNat, X32.fixSub,
        X32.FOUR, X32.ONE, X32.U32MOD]
    refine ⟨by simp [X32.slow_down, h], hd, by simp only [X32.slow_down, hd]⟩
  · intro h
    have hne : s.acceleration_steps ≠ 0 := by omega
    simp [X32.slow_down, hne]

/-- Witness for C3's amended theorem at two concrete states. -/
theorem x32_slow_down_floor_and_denominator_witness :
    (X32.slow_down zeroIndexState).acceleration_steps = 0 ∧
      (X32.slow_down midFlightState).acceleration_steps = 2 := by
  refine ⟨((x32_slow_down_floor_and_denominator zeroIndexState).1 (by decide)).1, ?_⟩
  rw [(x32_slow_down_floor_and_denominator midFlightState).2 (by decide)]
  decide

/-- C4 (code bug): with acceleration and speed non-zero but neither a step
target nor a duration target, `new` does not fail with the declared
`NoStepTargetAndNoDuration` error; it succeeds and builds a duration-mode
generator with a zero target duration.  The other three checks of the
claim are present, as the conjuncts at concrete inputs show. -/
theorem x32_new_accepts_missing_target :
    (X32.new 1000000 1 1 0 0 200).isOk = true ∧
      (X32.new 1000000 1 1 0 0 200).toOption.map (fun s => s.operating_mode)
        = some X32.OperatingMode.Duration ∧
      X32.new 1000000 1 0 5 0 200 = Except.error X32.Error.ZeroAcceleration ∧
      X32.new 1000000 0 1 5 0 200 = Except.error X32.Error.ZeroRpm ∧
      X32.new 1000000 1 1 5 7 200 = Except.error X32.Error.BothStepTargetAndDuration := by
  exact ⟨rfl, rfl, rfl, rfl, rfl⟩

/-- C1: for a generator constructed in step-target mode with target `N ≥ 1`
and never retargeted, the first `N` calls to `next_delay_step` all return
non-terminal results, the `(N+1)`-th call returns the terminal `none`, and
`current_step = N` at that moment. -/
theorem x32_step_target_emits_exactly_N
    (T rpm acc N steps : Nat) (s0 : X32.Stepgen)
    (hnew : X32.new T rpm acc N 0 steps = Except.ok s0)
    (h1 : 1 ≤ N) (hN : N < 4294967296) :
    (∀ k, k < N → ((X32.next_delay_step (X32.advanceN s0 k)).1).isSome = true) ∧
      (X32.next_delay_step (X32.advanceN s0 N)).1 = none ∧
      (X32.advanceN s0 N).current_step = N := by
  have hs : s0.current_step = 0 ∧ s0.target_step = N := by
    unfold X32.new at hnew
    split_ifs at hnew <;>
      first
        | exact Except.noConfusion hnew
        | (simp only [Except.ok.injEq] at hnew; subst hnew; exact ⟨rfl, rfl⟩)
  have hspec := X32.advanceN_spec s0 N hs.1 hs.2 hN
  refine ⟨?_, ?_, (hspec N le_rfl).1⟩
  · intro k hk
    obtain ⟨hks, hkt⟩ := hspec k (by omega)
    by_cases hk0 : k = 0
    · subst hk0
      rw [X32.nds_zero _ hks]
      rfl
    · exact (X32.nds_mid (X32.advanceN s0 k) (by rw [hks]; exact hk0)
        (by rw [hks, hkt]; omega) (by rw [hks]; omega)).1
  · obtain ⟨hNs, hNt⟩ := hspec N le_rfl
    rw [X32.nds_terminal (X32.advanceN s0 N) (by rw [hNs]; omega) (by rw [hNs, hNt])]

/-- C7: a call to `speed_up` with acceleration-step index `n ≥ 1` (the
generator always has at least one acceleration step on record when it
speeds up) subtracts `(2*delay)/(4n+1)` from the delay, clamps the result
up to `target_delay` when it fell below it, and increments the index;
consequently, starting from a delay at or above `target_delay`, the new
delay is never below `target_delay` and never above the old delay.  The
bounds on the index and delay keep the 32-bit fixed-point operations
exact, as they are for every delay the generator can hold. -/
theorem x32_speed_up_bounded_monotone (s : X32.Stepgen)
    (hn : 1 ≤ s.acceleration_steps) (hn2 : s.acceleration_steps < 262144)
    (ht : s.target_delay ≤ s.current_delay) (hd : s.current_delay < 2147483648) :
    s.target_delay ≤ (X32.speed_up s).current_delay ∧
      (X32.speed_up s).current_delay ≤ s.current_delay ∧
      (X32.speed_up s).acceleration_steps = s.acceleration_steps + 1 := by
  have hA : X32.fixFromNat s.acceleration_steps = s.acceleration_steps * 4096 := by
    unfold X32.fixFromNat X32.U32MOD
    exact Nat.mod_eq_of_lt (by omega)
  have hB : X32.fixMul X32.FOUR (s.acceleration_steps * 4096) = 16384 * s.acceleration_steps := by
    unfold X32.fixMul X32.FOUR X32.U32MOD
    have h1 : (16384 : Nat) * (s.acceleration_steps * 4096)
        = 16384 * s.acceleration_steps * 4096 := by ring
    rw [h1, Nat.mul_div_cancel _ (by norm_num)]
    exact Nat.mod_eq_of_lt (by omega)
  have hC : X32.fixAdd (16384 * s.acceleration_steps) X32.ONE
      = 16384 * s.acceleration_steps + 4096 := by
    unfold X32.fixAdd X32.ONE X32.U32MOD
    exact Nat.mod_eq_of_lt (by omega)
  have hD : X32.fixMul X32.TWO s.current_delay = 2 * s.current_delay := by
    unfold X32.fixMul X32.TWO X32.U32MOD
    have h1 : (8192 : Nat) * s.current_delay = 2 * s.current_delay * 4096 := by ring
    rw [h1, Nat.mul_div_cancel _ (by norm_num)]
    exact Nat.mod_eq_of_lt (by omega)
  have hE : X32.fixDiv (2 * s.current_delay) (16384 * s.acceleration_steps + 4096)
      = 2 * s.current_delay / (4 * s.acceleration_steps + 1) := by
    unfold X32.fixDiv X32.U32MOD
    have h1 : 16384 * s.acceleration_steps + 4096
        = (4 * s.acceleration_steps + 1) * 4096 := by ring
    rw [h1, Nat.mul_div_mul_right _ _ (by norm_num)]
    exact Nat.mod_eq_of_lt (lt_of_le_of_lt (Nat.div_le_self _ _) (by omega))
  have hq : 2 * s.current_delay / (4 * s.acceleration_steps + 1) ≤ s.current_delay := by
    have h5 : 2 * s.current_delay / (4 * s.acceleration_steps + 1)
        ≤ 2 * s.current_delay / 5 := Nat.div_le_div_left (by omega) (by norm_num)
    omega
  have hG : X32.fixSub s.current_delay (2 * s.current_delay / (4 * s.acceleration_steps + 1))
      = s.current_delay - 2 * s.current_delay / (4 * s.acceleration_steps + 1) :=
    X32.fixSub_of_le hq (by omega)
  unfold X32.speed_up
  dsimp only
  rw [hA, hB, hC, hD, hE, hG]
  refine ⟨?_, ?_, X32.u32Add1_of_lt (by omega)⟩
  · split_ifs with h
    · exact le_rfl
    · omega
  · split_ifs with h
    · exact ht
    · omega

/-- Witness for C7 at a concrete mid-flight state. -/
theorem x32_speed_up_bounded_monotone_witness :
    midFlightState.target_delay ≤ (X32.speed_up midFlightState).current_delay ∧
      (X32.speed_up midFlightState).current_delay ≤ midFlightState.current_delay ∧
      (X32.speed_up midFlightState).acceleration_steps = 4 := by
  have h := x32_speed_up_bounded_monotone midFlightState (by decide) (by decide)
    (by decide) (by decide)
  exact ⟨h.1, h.2.1, by rw [h.2.2]; decide⟩

/-- A duration-mode state whose move has started at time `0` with a target
duration of `5` ms; any reading at or past `5` is terminal. -/
def durTerminalState : X32.Stepgen :=
  { operating_mode := X32.OperatingMode.Duration,
    current_step := 4, acceleration_steps := 2, acceleration_duration_ms := 3,
    current_delay := 4096, current_duration_ms := 0, first_delay := 8192000,
    target_step := 0, target_duration_ms := 5, target_delay := 614400,
    start_time_ms := some 0, is_acceleration_done := false }

/-- C2: once `next_delay` has produced the terminal `none` — in step mode,
or in duration mode under present, monotonically non-decreasing clock
readings — every later call produces `none` as well; the generator is
never resurrected. -/
theorem x32_terminal_absorbing (s : X32.Stepgen) (t : Option Nat) (ts : List (Option Nat))
    (hterm : (X32.next_delay s t).1 = none)
    (hclk : s.operating_mode = X32.OperatingMode.Duration →
      ∃ t0 st, t = some t0 ∧ s.start_time_ms = some st ∧ st ≤ t0 ∧
        X32.clockChain t0 ts = true) :
    ∀ o ∈ X32.runSeq (X32.next_delay s t).2 ts, o = none := by
  cases hm : s.operating_mode with
  | Step =>
      rw [X32.nd_step s t hm] at hterm ⊢
      obtain ⟨h0, ht, hs⟩ := X32.nds_none_inv s hterm
      rw [hs]
      exact X32.step_dead ts s hm h0 ht
  | Duration =>
      obtain ⟨t0, st, rfl, hst, hst0, hch⟩ := hclk hm
      rw [X32.nd_dur s t0 hm] at hterm ⊢
      obtain ⟨hD, hpost⟩ := X32.ndd_none_inv s t0 st hst hterm
      rw [hpost]
      exact X32.dur_dead st ts t0 { s with current_duration_ms := t0 - st } hm hst
        (by show s.target_duration_ms + st ≤ t0; omega) hch

/-- Witness for C2: a concrete duration-mode terminal call followed by two
later readings, all of which stay terminal. -/
theorem x32_terminal_absorbing_witness :
    (X32.runSeq (X32.next_delay durTerminalState (some 10)).2 [some 10, some 12]).headI
      = none := by
  exact x32_terminal_absorbing durTerminalState (some 10) [some 10, some 12] (by decide)
    (fun _ => ⟨10, 0, rfl, rfl, by decide, by decide⟩) _ (by decide)

/-- A lib.rs generator cruising at `slewing_delay = target_delay = 7` with
speed index `3`, about to be retargeted below its current step. -/
def cruisingLibState : LibV1.Stepgen :=
  { current_step := 50, speed := 3, delay := 200, slewing_delay := 7,
    ticks_per_second := 1000000, first_delay := 2000, target_step := 100,
    target_delay := 7 }

/-- C5 counterexample: at an explicit cruising state, `set_target_step`
succeeds but leaves `slewing_delay` exactly as it was (`7`, non-zero); it
does not clear the cruise lock, contradicting the claim that the clear is
unconditional. -/
theorem lib_set_target_step_keeps_slewing_cex :
    (LibV1.set_target_step cruisingLibState 10).1 = Except.ok () ∧
      (LibV1.set_target_step cruisingLibState 10).2.slewing_delay = 7 ∧
      (7 : Nat) ≠ 0 := by
  refine ⟨rfl, rfl, by decide⟩

/-- C5 amended: `set_target_step` stores the new target and leaves
`slewing_delay` (and the rest of the motion state) unchanged; the cruise
lock is instead neutralised on the very next `next_delay` call, whose
projected-stop check runs against the stored target on every tick: when
the new target is at or below the current step and the generator is still
moving (`speed ≥ 2`), that check triggers `slowdown` and clears
`slewing_delay` on the first advance after the retarget. -/
theorem lib_retarget_lock_cleared_on_next_advance (s : LibV1.Stepgen) (n : Nat)
    (h1 : s.target_delay ≠ 0) (h2 : s.first_delay ≠ 0) :
    ((LibV1.set_target_step s n).1 = Except.ok () ∧
      (LibV1.set_target_step s n).2.slewing_delay = s.slewing_delay ∧
      (LibV1.set_target_step s n).2.target_step = n) ∧
    (n ≤ s.current_step → 2 ≤ s.speed → s.slewing_delay = s.target_delay →
      s.current_step + s.speed < 4294967296 →
      (LibV1.next_delay (LibV1.set_target_step s n).2).2.slewing_delay = 0) := by
  have hset : LibV1.set_target_step s n = (Except.ok (), { s with target_step := n }) := by
    unfold LibV1.set_target_step
    rw [if_neg (by push_neg; exact ⟨h1, h2⟩)]
  rw [hset]
  refine ⟨⟨rfl, rfl, rfl⟩, ?_⟩
  intro hn hsp hlock hbound
  unfold LibV1.next_delay
  rw [if_neg (show ¬ (({ s with target_step := n } : LibV1.Stepgen).target_step
      ≤ s.current_step ∧ s.speed ≤ 1) by dsimp only; omega)]
  dsimp only
  rw [show LibV1.clear_stale_slewing { s with target_step := n }
      = { s with target_step := n } by
    unfold LibV1.clear_stale_slewing
    rw [if_neg (fun hc => hc.2 hlock)]]
  dsimp only
  rw [show LibV1.load_first_delay
        { s with target_step := n, current_step := (s.current_step + 1) % LibV1.U32MOD }
      = { s with target_step := n, current_step := (s.current_step + 1) % LibV1.U32MOD } by
    unfold LibV1.load_first_delay
    rw [if_neg (show ¬ s.speed = 0 by omega)]]
  unfold LibV1.apply_ramp
  dsimp only
  rw [show (s.current_step + s.speed) % LibV1.U32MOD = s.current_step + s.speed
      from Nat.mod_eq_of_lt hbound]
  rw [if_neg (show ¬ s.current_step + s.speed = n by omega),
    if_pos (show n < s.current_step + s.speed by omega)]

/-- Witness for C5's amended theorem at the concrete cruising state. -/
theorem lib_retarget_lock_cleared_on_next_advance_witness :
    (LibV1.set_target_step cruisingLibState 10).1 = Except.ok () ∧
      (LibV1.next_delay (LibV1.set_target_step cruisingLibState 10).2).2.slewing_delay
        = 0 := by
  have h := lib_retarget_lock_cleared_on_next_advance cruisingLibState 10
    (by decide) (by decide)
  exact ⟨h.1.1, h.2 (by decide) (by decide) (by decide) (by decide)⟩

/-- C10: `set_target_step` fails with `SpeedAccelerationNotSet` and leaves
the generator (in particular the stored `target_step`) unchanged whenever
`target_delay` or `first_delay` is still zero, i.e. whenever speed and
acceleration have not both been configured; otherwise it stores the new
target and returns success. -/
theorem lib_set_target_step_requires_speed_accel (s : LibV1.Stepgen) (n : Nat) :
    ((s.target_delay = 0 ∨ s.first_delay = 0) →
      (LibV1.set_target_step s n).1 = Except.error LibV1.Error.SpeedAccelerationNotSet ∧
        (LibV1.set_target_step s n).2 = s) ∧
    (s.target_delay ≠ 0 → s.first_delay ≠ 0 →
      (LibV1.set_target_step s n).1 = Except.ok () ∧
        (LibV1.set_target_step s n).2 = { s with target_step := n }) := by
  constructor
  · intro h
    unfold LibV1.set_target_step
    rw [if_pos h]
    exact ⟨rfl, rfl⟩
  · intro h1 h2
    unfold LibV1.set_target_step
    rw [if_neg (by push_neg; exact ⟨h1, h2⟩)]
    exact ⟨rfl, rfl⟩

/-- Witness for C10: both the unconfigured and the configured case at
concrete states. -/
theorem lib_set_target_step_requires_speed_accel_witness :
    ((LibV1.set_target_step (LibV1.new 1000000) 9).1
        = Except.error LibV1.Error.SpeedAccelerationNotSet ∧
      (LibV1.set_target_step (LibV1.new 1000000) 9).2 = LibV1.new 1000000) ∧
    ((LibV1.set_target_step cruisingLibState 9).1 = Except.ok () ∧
      (LibV1.set_target_step cruisingLibState 9).2
        = { cruisingLibState with target_step := 9 }) := by
  exact ⟨(lib_set_target_step_requires_speed_accel (LibV1.new 1000000) 9).1 (Or.inl rfl),
    (lib_set_target_step_requires_speed_accel cruisingLibState 9).2
      (by decide) (by decide)⟩

/-- Witness for C1: a concrete construction with step target `2`. -/
theorem x32_step_target_emits_exactly_N_witness :
    (X32.next_delay_step (X32.advanceN
        ((X32.new 1000000 600 1000 2 0 200).toOption.getD defaultStepgen) 2)).1 = none := by
  have h : X32.new 1000000 600 1000 2 0 200
      = Except.ok ((X32.new 1000000 600 1000 2 0 200).toOption.getD defaultStepgen) := rfl
  exact (x32_step_target_emits_exactly_N 1000000 600 1000 2 200 _ h
    (by decide) (by decide)).2.1
